import Mathlib

/-!
Verification of the FV-1 assembly language server (server/src/server.ts).

The development shallowly embeds the document-intelligence pipeline of the
language server: the diagnostic validator (`validateTextDocument`), the
per-resource settings cache (`getDocumentSettings`, the configuration-change
and document-close handlers), and the completion service (`onCompletion`,
`onCompletionResolve`).  Asynchronous effects are made explicit: a settings
fetch outcome is an `Except` value, the published-diagnostics state is an
association list from document URI to diagnostic list, and the cache of
pending settings promises is an association list from resource URI to a
fetch identifier together with a counter of fetches issued so far.
-/

namespace FV1Server

/-! ### Text scanning: the validator regular expression

`validateTextDocument` scans the document text with the JavaScript regular
expression `\b[A-Z]{2,}\b` (global flag), producing matches in
left-to-right order.  A word character for `\b` is `[A-Za-z0-9_]`.  A match
of the pattern is a maximal run of uppercase letters of length at least two
whose neighbours are not word characters; after a match, scanning resumes at
the first offset past the match (`lastIndex` semantics of `RegExp.exec`). -/

/-- JavaScript word character (`\w`), as used by the `\b` assertion. -/
def isWordChar (c : Char) : Bool :=
  ('a' ≤ c && c ≤ 'z') || ('A' ≤ c && c ≤ 'Z') || ('0' ≤ c && c ≤ '9') || c == '_'

/-- Uppercase ASCII letter, the character class `[A-Z]` of the pattern. -/
def isUpperAZ (c : Char) : Bool :=
  'A' ≤ c && c ≤ 'Z'

/-- Length of the maximal `[A-Z]` run at the head of the list (the greedy
extent of `[A-Z]{2,}`). -/
def upperRunLen : List Char → Nat
  | [] => 0
  | c :: cs => if isUpperAZ c then upperRunLen cs + 1 else 0

/-- The `\b` assertion holds after a word character at the head of `rest`:
either the text ends there or the next character is not a word character. -/
def boundaryAfter : List Char → Bool
  | [] => true
  | c :: _ => !isWordChar c

/-- One step per character of the `RegExp.exec` loop for `\b[A-Z]{2,}\b/g`.
`prevWord` records whether the character before the current offset `i` is a
word character (deciding `\b` at `i`); `fuel` is an upper bound on the
number of characters left, so the recursion is structural.  When a match of
length `r` is found at `i`, it is emitted and scanning resumes at `i + r`
(the character before that offset is uppercase, hence a word character). -/
def scanAux : Nat → Bool → Nat → List Char → List (Nat × Nat)
  | 0, _, _, _ => []
  | _, _, _, [] => []
  | fuel + 1, prevWord, i, c :: cs =>
    let r := upperRunLen (c :: cs)
    if !prevWord && decide (2 ≤ r) && boundaryAfter ((c :: cs).drop r) then
      (i, r) :: scanAux fuel true (i + r) ((c :: cs).drop r)
    else
      scanAux fuel (isWordChar c) (i + 1) cs

/-- All matches `(index, length)` of `\b[A-Z]{2,}\b` in the text, in
left-to-right scan order. -/
def scanMatches (text : String) : List (Nat × Nat) :=
  scanAux text.data.length false 0 text.data

/-! ### Offset-to-position mapping

`textDocument.positionAt` comes from the `vscode-languageserver-textdocument`
library: line offsets are the starts of lines, where a line break is `\r\n`,
`\r` or `\n`; the position of an offset is the last line whose start does
not exceed the (clamped) offset, with the column counted from that start. -/

/-- A line/character position in a document. -/
structure Position where
  line : Nat
  character : Nat
deriving DecidableEq, Repr

/-- Offsets at which lines start: offset `0`, then the offset just past each
line break (`\r\n` counts as a single break). -/
def lineOffsetsAux (i : Nat) : List Char → List Nat
  | [] => []
  | '\r' :: '\n' :: cs => (i + 2) :: lineOffsetsAux (i + 2) cs
  | '\r' :: cs => (i + 1) :: lineOffsetsAux (i + 1) cs
  | '\n' :: cs => (i + 1) :: lineOffsetsAux (i + 1) cs
  | _ :: cs => lineOffsetsAux (i + 1) cs

/-- The list of line-start offsets of a text, beginning with `0`. -/
def lineOffsets (s : List Char) : List Nat :=
  0 :: lineOffsetsAux 0 s

/-- Greatest line index whose start offset is at most `o`, together with
that start offset, scanning the remaining line starts. -/
def findLine (o : Nat) : Nat → Nat → List Nat → Nat × Nat
  | line, start, [] => (line, start)
  | line, start, l :: ls =>
    if l ≤ o then findLine o (line + 1) l ls else (line, start)

/-- `TextDocument.positionAt`: clamp the offset into the text, then locate
the containing line and subtract its start offset. -/
def positionAt (text : String) (offset : Nat) : Position :=
  let o := min offset text.data.length
  let p := findLine o 0 0 (lineOffsetsAux 0 text.data)
  ⟨p.1, o - p.2⟩

/-! ### Diagnostics -/

/-- `DiagnosticSeverity.Warning` of the language server protocol. -/
def DiagnosticSeverity.Warning : Nat := 2

/-- A location: a document URI and a range in it. -/
structure Location where
  uri : String
  rangeStart : Position
  rangeEnd : Position
deriving DecidableEq, Repr

/-- One related-information entry of a diagnostic. -/
structure DiagnosticRelatedInformation where
  location : Location
  message : String
deriving DecidableEq, Repr

/-- A published diagnostic, as built by `validateTextDocument`. -/
structure Diagnostic where
  severity : Nat
  rangeStart : Position
  rangeEnd : Position
  message : String
  source : String
  relatedInformation : Option (List DiagnosticRelatedInformation)
deriving DecidableEq, Repr

/-- The settings interface `FV1LanguageServerSettings`. -/
structure FV1LanguageServerSettings where
  maxNumberOfProblems : Nat
deriving DecidableEq, Repr

/-- `const defaultSettings = { maxNumberOfProblems: 1000 }`. -/
def defaultSettings : FV1LanguageServerSettings :=
  { maxNumberOfProblems := 1000 }

/-- The diagnostic built from one match `(index, length)`: severity warning,
range from `positionAt index` to `positionAt (index + length)`, message
derived from the matched text, source tag `ex`; when the client negotiated
diagnostic related information, two related entries at the same range. -/
def mkDiagnostic (hasRelatedInformation : Bool) (uri text : String)
    (m : Nat × Nat) : Diagnostic :=
  let s := positionAt text m.1
  let e := positionAt text (m.1 + m.2)
  { severity := DiagnosticSeverity.Warning
    rangeStart := s
    rangeEnd := e
    message := String.mk ((text.data.drop m.1).take m.2) ++ " is all uppercase."
    source := "ex"
    relatedInformation :=
      if hasRelatedInformation then
        some [⟨⟨uri, s, e⟩, "Spelling matters"⟩,
              ⟨⟨uri, s, e⟩, "Particularly for names"⟩]
      else none }

/-- The diagnostic list computed by one `validateTextDocument` pass: the
`exec` loop keeps a match only while `problems < settings.maxNumberOfProblems`,
so exactly the first `maxNumberOfProblems` matches are retained. -/
def computeDiagnostics (hasRelatedInformation : Bool) (uri text : String)
    (maxNumberOfProblems : Nat) : List Diagnostic :=
  ((scanMatches text).take maxNumberOfProblems).map
    (mkDiagnostic hasRelatedInformation uri text)

/-! ### Association lists

The published-diagnostics state (per-URI diagnostic sets held by the editor)
and the settings cache (`documentSettings : Map<string, Thenable<...>>`)
are modelled as association lists keyed by URI. -/

/-- First value bound to key `k`, like `Map.get`. -/
def lookupEntry {β : Type} (k : String) : List (String × β) → Option β
  | [] => none
  | p :: rest => if p.1 = k then some p.2 else lookupEntry k rest

/-- Bind key `k` to `v`, replacing any previous binding, like `Map.set`. -/
def setEntry {β : Type} (m : List (String × β)) (k : String) (v : β) :
    List (String × β) :=
  (k, v) :: m.filter (fun p => p.1 != k)

/-- Remove the binding of key `k`, like `Map.delete`. -/
def deleteEntry {β : Type} (m : List (String × β)) (k : String) :
    List (String × β) :=
  m.filter (fun p => p.1 != k)

/-! ### The validation pass

`validateTextDocument` first awaits `getDocumentSettings`; if that promise
rejects, the `async` function rethrows and `connection.sendDiagnostics` is
never reached, so the editor keeps whatever set was last published.  On
success it publishes the computed list as the new set for the document's
URI, replacing the previous one. -/

/-- The fetched-settings outcome awaited at the start of a pass. -/
abbrev FetchOutcome := Except String FV1LanguageServerSettings

/-- The per-URI diagnostic sets currently published to the editor. -/
abbrev PublishedStore := List (String × List Diagnostic)

/-- The body of `validateTextDocument` after the awaited fetch: a rejected
fetch rejects the pass, otherwise the pass yields the computed list. -/
def validateTextDocument (fetched : FetchOutcome)
    (hasRelatedInformation : Bool) (uri text : String) :
    Except String (List Diagnostic) :=
  fetched.map (fun settings =>
    computeDiagnostics hasRelatedInformation uri text settings.maxNumberOfProblems)

/-- Effect of one validation pass on the published diagnostic sets: a failed
pass publishes nothing; a successful pass replaces the set for `uri`. -/
def runValidation (store : PublishedStore) (hasRelatedInformation : Bool)
    (fetched : FetchOutcome) (uri text : String) : PublishedStore :=
  match validateTextDocument fetched hasRelatedInformation uri text with
  | .error _ => store
  | .ok diagnostics => setEntry store uri diagnostics

/-- The diagnostic set the editor currently shows for `uri`. -/
def publishedFor (store : PublishedStore) (uri : String) :
    Option (List Diagnostic) :=
  lookupEntry uri store

/-! ### The settings cache

`getDocumentSettings` stores the `Thenable` returned by
`connection.workspace.getConfiguration` in `documentSettings` before
returning it.  A `Thenable` is modelled as either the synchronously resolved
global settings (`Promise.resolve(globalSettings)`) or the identifier of a
fetch request; `fetchCount` counts the fetches issued so far and supplies
fresh identifiers. -/

/-- A settings promise as returned by `getDocumentSettings`. -/
inductive SettingsThenable where
  /-- `Promise.resolve(globalSettings)`: already resolved, no fetch. -/
  | resolvedGlobal (settings : FV1LanguageServerSettings)
  /-- The pending result of configuration-fetch request number `id`. -/
  | fetch (id : Nat)
deriving DecidableEq, Repr

/-- The mutable module-level state of the server that the settings handlers
touch: the capability flag fixed at initialization, `globalSettings`, the
`documentSettings` cache, and the count of fetches issued. -/
structure ServerState where
  hasConfigurationCapability : Bool
  globalSettings : FV1LanguageServerSettings
  documentSettings : List (String × Nat)
  fetchCount : Nat
deriving DecidableEq, Repr

/-- The state right after initialization, before any configuration-change
notification: `globalSettings = defaultSettings`, empty cache. -/
def initialServerState (hasConfigurationCapability : Bool) : ServerState :=
  { hasConfigurationCapability := hasConfigurationCapability
    globalSettings := defaultSettings
    documentSettings := []
    fetchCount := 0 }

/-- `getDocumentSettings`: without the configuration capability, the global
settings are returned synchronously and the state is untouched.  Otherwise a
cached promise is returned if present; else a fetch is issued and its
promise is stored in the map before being returned. -/
def getDocumentSettings (st : ServerState) (resource : String) :
    SettingsThenable × ServerState :=
  if st.hasConfigurationCapability = false then
    (.resolvedGlobal st.globalSettings, st)
  else
    match lookupEntry resource st.documentSettings with
    | some id => (.fetch id, st)
    | none =>
      (.fetch st.fetchCount,
        { st with
          documentSettings := (resource, st.fetchCount) :: st.documentSettings
          fetchCount := st.fetchCount + 1 })

/-- `connection.onDidChangeConfiguration`: with the configuration capability
every cached entry is dropped; without it the global settings are replaced
from the notification payload, falling back to `defaultSettings` when the
`fv1LanguageServer` section is absent.  (The handler then revalidates all
open documents, which does not touch this state.) -/
def onDidChangeConfiguration (st : ServerState)
    (payloadSettings : Option FV1LanguageServerSettings) : ServerState :=
  if st.hasConfigurationCapability then
    { st with documentSettings := [] }
  else
    { st with globalSettings := payloadSettings.getD defaultSettings }

/-- `documents.onDidClose`: drop the closed document's cache entry. -/
def onDidClose (st : ServerState) (uri : String) : ServerState :=
  { st with documentSettings := deleteEntry st.documentSettings uri }

/-! ### The completion service

`connection.onCompletion` ignores the document position and always returns
the same literal list of instruction proposals; `connection.onCompletionResolve`
enriches an item whose `data` key is `1` or `2` and returns any other item
unchanged.  `data` is absent (`none`) on every catalog item. -/

/-- `CompletionItemKind.Keyword` of the language server protocol. -/
def CompletionItemKind.Keyword : Nat := 14

/-- A completion proposal, with the fields the server populates or reads. -/
structure CompletionItem where
  label : String
  documentation : Option String
  detail : Option String
  kind : Option Nat
  data : Option Nat
deriving DecidableEq, Repr

/-- A completion request: a document identifier and a cursor position. -/
structure TextDocumentPositionParams where
  uri : String
  position : Position
deriving DecidableEq, Repr

/-- `connection.onCompletion`: the position parameter is ignored and the
same completion items are always provided, in catalog declaration order. -/
def onCompletion (_textDocumentPosition : TextDocumentPositionParams) :
    List CompletionItem :=
  [ { label := "EQU"
      documentation := some "Equate a value to a label reference"
      detail := some "Usage:\n\t\t\t\t\tequ krt 0.86 ;equate the label krt to the value of 0.86\n\t\t\t\t\tequ\tsgn\t-1\t;equate the label sgn to the value of -1\n\t\t\t\t\tequ\ta\treg0\t;equate the label a to represent register 0"
      kind := some CompletionItemKind.Keyword
      data := none },
    { label := "MEM"
      documentation := some "Define the length of delay memory elements and associate an address label."
      detail := some "Usage: mem del1 1000 ;assign 1000 delay memory locations to the label del1"
      kind := some CompletionItemKind.Keyword
      data := none },
    { label := "RDA"
      documentation := some "Read delay memory times coefficient and add to accumulator."
      detail := some "Usage: rda memaddress,coefficient"
      kind := some CompletionItemKind.Keyword
      data := none },
    { label := "RMPA"
      documentation := some "Read delay memory from addr_ptr location, multiply by coefficient and add to accumulator"
      detail := some "Usage: rmpa coefficient"
      kind := some CompletionItemKind.Keyword
      data := none },
    { label := "WRA"
      documentation := some "Write ACC to delay memory location and multiply ACC by coefficient"
      detail := some "Usage: wra memaddrs,coefficient"
      kind := some CompletionItemKind.Keyword
      data := none },
    { label := "WRAP"
      documentation := some "Write delay memory, multiply written value by the coefficient, add to LR register and load ACC with result."
      detail := some "Usage: wrap memaddrs,coefficient"
      kind := some CompletionItemKind.Keyword
      data := none },
    { label := "RDAX"
      documentation := some "Read register value, multiply by coefficient and add to ACC."
      detail := some "Usage: rdax reg0,0.2"
      kind := some CompletionItemKind.Keyword
      data := none },
    { label := "RDFX"
      documentation := some "Subtract register contents from ACC, multiply by coefficient, add register contents and load to ACC."
      detail := some "Usage: rdfx reg0,0.23"
      kind := some CompletionItemKind.Keyword
      data := none },
    { label := "WRAX"
      documentation := some "Write ACC to register, multiply ACC by coefficient"
      detail := some "Usage: wrax reg1,0"
      kind := some CompletionItemKind.Keyword
      data := none },
    { label := "WRHX"
      documentation := some "Write ACC to register, multiply ACC by coefficient, add PACC and load result to ACC"
      detail := some "Usage: wrhx reg2,-0.5"
      kind := some CompletionItemKind.Keyword
      data := none },
    { label := "WRLX"
      documentation := some "Write ACC to the register, subtract ACC from PACC, multiply result by the coefficient, then add PACC and load result to ACC."
      detail := some "Usage: wrlx reg6,kshlf"
      kind := some CompletionItemKind.Keyword
      data := none },
    { label := "MAXX"
      documentation := some "Load the maximum of the absolute value of the register times the coefficient or the absolute value of ACC to ACC."
      detail := some "Usage: maxx reg2,0.5"
      kind := some CompletionItemKind.Keyword
      data := none },
    { label := "ABSA"
      documentation := some "Changes the ACC contents to absolute value of ACC"
      detail := none
      kind := some CompletionItemKind.Keyword
      data := none },
    { label := "MULX"
      documentation := some "Load the accumulator with the product of ACC and a register."
      detail := some "Usage: mulx reg0"
      kind := some CompletionItemKind.Keyword
      data := none },
    { label := "LOG"
      documentation := some "Take the LOG base 2 of the absolute value of the accumulator, divide result by 16, multiply the result by the coefficient, add a constant and load to ACC."
      detail := some "Usage: log 1.5,-0.3"
      kind := some CompletionItemKind.Keyword
      data := none },
    { label := "EXP"
      documentation := some "Raise 2 to the power of the accumulator*16, multiply by coefficient and add to a constant, loading the result to ACC."
      detail := some "Usage: exp 0.8,0"
      kind := some CompletionItemKind.Keyword
      data := none },
    { label := "SOF"
      documentation := some "Multiply ACC by the coefficient value and add a constant (Scale and Offset)"
      detail := some "Usage: SOF 1.5,-0.3"
      kind := some CompletionItemKind.Keyword
      data := none },
    { label := "AND"
      documentation := some "And ACC with immediate mask"
      detail := some "Usage: and %011111000000000000000000"
      kind := some CompletionItemKind.Keyword
      data := none },
    { label := "OR"
      documentation := some "Or ACC with immediate mask"
      detail := some "Usage: or %011111000000000000000000"
      kind := some CompletionItemKind.Keyword
      data := none },
    { label := "XOR"
      documentation := some "Xor ACC with immediate mask"
      detail := some "Usage: xor %011111000000000000000000"
      kind := some CompletionItemKind.Keyword
      data := none },
    { label := "SKP"
      documentation := some "Skip N instructions based on condition"
      detail := some "Usage: skp zro,2 ;skip ahead 2 instructions if accumulator is zero."
      kind := some CompletionItemKind.Keyword
      data := none },
    { label := "WLDS"
      documentation := some "Load SIN/COS generator with initial conditions"
      detail := some "Usage: wlds sin0,freq,amp ;load the SIN/COS0 generator with freq and amp variables"
      kind := some CompletionItemKind.Keyword
      data := none },
    { label := "WLDR"
      documentation := some "Load RAMP generator with initial conditions"
      detail := some "Usage: wldr rmp0,freq,amp ;load the RAMP0 generator with freq and amp variables"
      kind := some CompletionItemKind.Keyword
      data := none },
    { label := "JAM"
      documentation := some "When executed, will force a selected RAMP generator to it\x27s starting condition"
      detail := some "Usage: jam 0"
      kind := some CompletionItemKind.Keyword
      data := none },
    { label := "CHO"
      documentation := some "General operation for reading delay memory from an LFO output as both a memory pointer and an interpolation coefficient."
      detail := some "Usage: cho rda,sin0, SIN | REG ,del1+100 ;read del1+100+(sine of SIN/COS0 value) also, register LFO values."
      kind := some CompletionItemKind.Keyword
      data := none },
    { label := "NOP"
      documentation := some "No operation"
      detail := none
      kind := some CompletionItemKind.Keyword
      data := none },
    { label := "NOT"
      documentation := some "Change sign of ACC value"
      detail := none
      kind := some CompletionItemKind.Keyword
      data := none },
    { label := "CLR"
      documentation := some "Clear ACC"
      detail := none
      kind := some CompletionItemKind.Keyword
      data := none } ]

/-- `connection.onCompletionResolve`: augment the item whose resolution key
`data` is `1` or `2`; return every other item unchanged. -/
def onCompletionResolve (item : CompletionItem) : CompletionItem :=
  if item.data = some 1 then
    { item with
      detail := some "TypeScript details"
      documentation := some "TypeScript documentation" }
  else if item.data = some 2 then
    { item with
      detail := some "JavaScript details"
      documentation := some "JavaScript documentation" }
  else
    item

/-- From package.json (contributes.configuration): the declared default of
the fv1AssemblyLanguageServer.maxNumberOfProblems configuration key. -/
def maxNumberOfProblemsDeclaredDefault : Nat := 100

/-- The label sequence of the catalog, in declaration order. -/
def catalogLabels : List String :=
  ["EQU", "MEM", "RDA", "RMPA", "WRA", "WRAP", "RDAX", "RDFX", "WRAX",
   "WRHX", "WRLX", "MAXX", "ABSA", "MULX", "LOG", "EXP", "SOF", "AND",
   "OR", "XOR", "SKP", "WLDS", "WLDR", "JAM", "CHO", "NOP", "NOT", "CLR"]

/-! ### Helper lemmas -/

/-- A key looks up to `nothing` exactly when it is not among the keys. -/
theorem lookupEntry_eq_none_iff {β : Type} (k : String) (m : List (String × β)) :
    lookupEntry k m = none ↔ k ∉ m.map Prod.fst := by
  induction m with
  | nil => simp [lookupEntry]
  | cons p rest ih =>
    simp only [lookupEntry, List.map_cons, List.mem_cons]
    split
    next h => simp [h.symm]
    next h =>
      simp only [ih]
      constructor
      · intro hn hmem
        rcases hmem with hk | hk
        · exact h hk.symm
        · exact hn hk
      · intro hn hk
        exact hn (Or.inr hk)

/-- Looking up the key just bound by `setEntry` yields the new value. -/
theorem lookupEntry_setEntry_self {β : Type} (m : List (String × β))
    (k : String) (v : β) : lookupEntry k (setEntry m k v) = some v := by
  simp [lookupEntry, setEntry]

/-- Filtering an association list keeps its keys free of duplicates. -/
theorem keys_filter_nodup {β : Type} (m : List (String × β))
    (f : String × β → Bool) (h : (m.map Prod.fst).Nodup) :
    (((m.filter f).map Prod.fst)).Nodup :=
  h.sublist ((m.filter_sublist).map Prod.fst)

/-- Without the configuration capability, `getDocumentSettings` resolves the
global settings synchronously and leaves the state untouched. -/
theorem getDocumentSettings_no_capability (g : FV1LanguageServerSettings)
    (ds : List (String × Nat)) (fc : Nat) (u : String) :
    getDocumentSettings ⟨false, g, ds, fc⟩ u
      = (.resolvedGlobal g, ⟨false, g, ds, fc⟩) := by
  simp [getDocumentSettings]

/-- With the capability, a cached promise is returned without state change. -/
theorem getDocumentSettings_cached (g : FV1LanguageServerSettings)
    (ds : List (String × Nat)) (fc : Nat) (u : String) (id : Nat)
    (hlk : lookupEntry u ds = some id) :
    getDocumentSettings ⟨true, g, ds, fc⟩ u = (.fetch id, ⟨true, g, ds, fc⟩) := by
  simp [getDocumentSettings, hlk]

/-- With the capability and no cached entry, a fetch is issued and its
promise is stored before being returned. -/
theorem getDocumentSettings_fresh (g : FV1LanguageServerSettings)
    (ds : List (String × Nat)) (fc : Nat) (u : String)
    (hlk : lookupEntry u ds = none) :
    getDocumentSettings ⟨true, g, ds, fc⟩ u
      = (.fetch fc, ⟨true, g, (u, fc) :: ds, fc + 1⟩) := by
  simp [getDocumentSettings, hlk]

/-! ### The claims -/

/-- Claim C1: for every document text and every resolved settings value, the
diagnostic list computed by `validateTextDocument` contains at most
`settings.maxNumberOfProblems` diagnostics; matches beyond the limit are
dropped (the list is the truncation of any longer-budget run); and when
`maxNumberOfProblems = 0` the published set is empty, an empty set still
being published for the document's URI. -/
theorem validateTextDocument_bounded (hasRelated : Bool) (uri text : String)
    (maxP k : Nat) (store : PublishedStore) :
    (computeDiagnostics hasRelated uri text maxP).length ≤ maxP
    ∧ computeDiagnostics hasRelated uri text maxP
        = (computeDiagnostics hasRelated uri text (maxP + k)).take maxP
    ∧ computeDiagnostics hasRelated uri text 0 = []
    ∧ publishedFor (runValidation store hasRelated (.ok ⟨0⟩) uri text) uri
        = some [] := by
  refine ⟨?_, ?_, ?_, ?_⟩
  · simp only [computeDiagnostics, List.length_map, List.length_take]
    exact min_le_left _ _
  · simp only [computeDiagnostics, ← List.map_take, List.take_take]
    rw [Nat.min_eq_left (Nat.le_add_right _ _)]
  · simp [computeDiagnostics]
  · simp [runValidation, validateTextDocument, Except.map, publishedFor,
      computeDiagnostics, lookupEntry_setEntry_self]

/-- Claim C6: if the settings fetch awaited at the start of
`validateTextDocument` rejects, the validation pass fails and no diagnostics
are published for the document, leaving the previously published sets (for
this and every other document) unchanged. -/
theorem validateTextDocument_fetch_failure (store : PublishedStore)
    (hasRelated : Bool) (e uri text : String) :
    validateTextDocument (.error e) hasRelated uri text = .error e
    ∧ runValidation store hasRelated (.error e) uri text = store :=
  ⟨rfl, rfl⟩

/-- Claim C7: on a configuration-change notification, with per-resource
configuration supported the handler drops every cached per-resource entry
and leaves the global settings unchanged; without it the cache is left
unchanged and the global settings are replaced from the payload, falling
back to the defaults when the payload section is absent.  The capability
flag and the fetch count are untouched either way. -/
theorem onDidChangeConfiguration_frame (st : ServerState)
    (payloadSettings : Option FV1LanguageServerSettings) :
    (onDidChangeConfiguration st payloadSettings).documentSettings
      = (if st.hasConfigurationCapability then [] else st.documentSettings)
    ∧ (onDidChangeConfiguration st payloadSettings).globalSettings
      = (if st.hasConfigurationCapability then st.globalSettings
         else payloadSettings.getD defaultSettings)
    ∧ (onDidChangeConfiguration st payloadSettings).hasConfigurationCapability
      = st.hasConfigurationCapability
    ∧ (onDidChangeConfiguration st payloadSettings).fetchCount
      = st.fetchCount := by
  unfold onDidChangeConfiguration
  split <;> simp_all

/-- Claim C8: validation is deterministic and replacing — a successful pass
publishes exactly the recomputed diagnostic list for the document's URI,
regardless of what was published before (no merging), so two passes over
identical text and settings yield identical published sets, and a repeated
pass leaves the published set unchanged. -/
theorem validation_deterministic_replacement (store store' : PublishedStore)
    (hasRelated : Bool) (s : FV1LanguageServerSettings) (uri text : String) :
    publishedFor (runValidation store hasRelated (.ok s) uri text) uri
      = some (computeDiagnostics hasRelated uri text s.maxNumberOfProblems)
    ∧ publishedFor (runValidation store hasRelated (.ok s) uri text) uri
      = publishedFor (runValidation store' hasRelated (.ok s) uri text) uri
    ∧ publishedFor
        (runValidation (runValidation store hasRelated (.ok s) uri text)
          hasRelated (.ok s) uri text) uri
      = publishedFor (runValidation store hasRelated (.ok s) uri text) uri := by
  refine ⟨?_, ?_, ?_⟩ <;>
    simp [runValidation, validateTextDocument, Except.map, publishedFor,
      lookupEntry_setEntry_self]

/-- Claim C9: when per-resource configuration is unsupported,
`getDocumentSettings` returns the current global settings synchronously (an
already-resolved value, no state change and no fetch); before any
configuration-change notification that value is the internal fallback
default with `maxNumberOfProblems = 1000`, while the configuration metadata
of package.json declares a default of `100`. -/
theorem getDocumentSettings_global_fallback
    (g : FV1LanguageServerSettings) (ds : List (String × Nat)) (fc : Nat)
    (u : String) :
    getDocumentSettings ⟨false, g, ds, fc⟩ u
      = (.resolvedGlobal g, ⟨false, g, ds, fc⟩)
    ∧ (getDocumentSettings (initialServerState false) u).1
      = .resolvedGlobal { maxNumberOfProblems := 1000 }
    ∧ defaultSettings.maxNumberOfProblems = 1000
    ∧ maxNumberOfProblemsDeclaredDefault = 100
    ∧ maxNumberOfProblemsDeclaredDefault ≠ defaultSettings.maxNumberOfProblems := by
  refine ⟨?_, ?_, rfl, rfl, by decide⟩
  · simp [getDocumentSettings]
  · simp [getDocumentSettings, initialServerState, defaultSettings]

/-- Claim C2: on the document text `"NOP\nABSA BADOPCODE\n"` with
`maxNumberOfProblems = 1`, `validateTextDocument` computes exactly one
diagnostic, for the first all-uppercase token of length at least two in scan
order (`NOP`, the match at offset 0 of length 3, i.e. the range from line 0
column 0 to line 0 column 3), with severity warning and message
`"NOP is all uppercase."`. -/
theorem validateTextDocument_scenario_limit_one : ∀ hasRelated : Bool,
    scanMatches "NOP\nABSA BADOPCODE\n" = [(0, 3), (4, 4), (9, 9)]
    ∧ (computeDiagnostics hasRelated "file:///doc.spn" "NOP\nABSA BADOPCODE\n" 1).map
        (fun d => (d.severity, d.rangeStart, d.rangeEnd, d.message, d.source))
      = [(DiagnosticSeverity.Warning, ⟨0, 0⟩, ⟨0, 3⟩,
          "NOP is all uppercase.", "ex")] := by
  intro hasRelated
  cases hasRelated <;> exact ⟨by decide, by decide⟩

/-- Claim C3: the completion handler returns the same proposal sequence for
every document and cursor position, in catalog declaration order, with the
label sequence `EQU, MEM, RDA, …` ending in `CLR`. -/
theorem onCompletion_position_independent (p q : TextDocumentPositionParams) :
    onCompletion p = onCompletion q
    ∧ (onCompletion p).map CompletionItem.label = catalogLabels
    ∧ ((onCompletion p).map CompletionItem.label).getLast? = some "CLR" :=
  ⟨rfl, rfl, rfl⟩

/-- Claim C4: completion resolution is idempotent — resolving an already
resolved item changes nothing — and an item whose resolution key is
recognized by neither branch (`data` is neither `1` nor `2`) is returned
unchanged. -/
theorem onCompletionResolve_idempotent (item : CompletionItem) :
    onCompletionResolve (onCompletionResolve item) = onCompletionResolve item
    ∧ (item.data ≠ some 1 → item.data ≠ some 2 →
        onCompletionResolve item = item) := by
  constructor
  · by_cases h1 : item.data = some 1
    · simp [onCompletionResolve, h1]
    · by_cases h2 : item.data = some 2
      · simp [onCompletionResolve, h1, h2]
      · simp [onCompletionResolve, h1, h2]
  · intro h1 h2
    simp [onCompletionResolve, h1, h2]

/-- Witness for C4 at the `CLR` catalog item, whose key is unrecognized. -/
theorem onCompletionResolve_idempotent_witness :
    ((⟨"CLR", some "Clear ACC", none, some 14, none⟩ : CompletionItem).data
        ≠ some 1)
    ∧ ((⟨"CLR", some "Clear ACC", none, some 14, none⟩ : CompletionItem).data
        ≠ some 2)
    ∧ onCompletionResolve ⟨"CLR", some "Clear ACC", none, some 14, none⟩
        = ⟨"CLR", some "Clear ACC", none, some 14, none⟩ :=
  ⟨by decide, by decide,
    (onCompletionResolve_idempotent
      ⟨"CLR", some "Clear ACC", none, some 14, none⟩).2 (by decide) (by decide)⟩

/-- Claim C5: the settings cache holds at most one pending-or-resolved entry
per resource — every handler preserves distinctness of the cached keys —
and because `getDocumentSettings` stores the fetch promise in the map before
returning, a second `get` for the same resource returns the cached promise
and changes nothing (in particular it issues no new fetch), while after a
configuration-change cache clear the next `get` issues exactly one fetch. -/
theorem getDocumentSettings_cache_invariant (cap : Bool)
    (g : FV1LanguageServerSettings) (ds : List (String × Nat)) (fc : Nat)
    (u v : String) (payloadSettings : Option FV1LanguageServerSettings)
    (hnd : (ds.map Prod.fst).Nodup) :
    (((getDocumentSettings ⟨cap, g, ds, fc⟩ u).2.documentSettings.map
        Prod.fst).Nodup
      ∧ ((onDidChangeConfiguration ⟨cap, g, ds, fc⟩
            payloadSettings).documentSettings.map Prod.fst).Nodup
      ∧ ((onDidClose ⟨cap, g, ds, fc⟩ v).documentSettings.map Prod.fst).Nodup)
    ∧ getDocumentSettings (getDocumentSettings ⟨cap, g, ds, fc⟩ u).2 u
        = getDocumentSettings ⟨cap, g, ds, fc⟩ u
    ∧ (getDocumentSettings
          (onDidChangeConfiguration ⟨true, g, ds, fc⟩ payloadSettings)
          u).2.fetchCount = fc + 1 := by
  refine ⟨⟨?_, ?_, ?_⟩, ?_, ?_⟩
  · cases cap with
    | false => rw [getDocumentSettings_no_capability]; exact hnd
    | true =>
      cases hlk : lookupEntry u ds with
      | some id => rw [getDocumentSettings_cached g ds fc u id hlk]; exact hnd
      | none =>
        rw [getDocumentSettings_fresh g ds fc u hlk]
        simp only [List.map_cons, List.nodup_cons]
        exact ⟨(lookupEntry_eq_none_iff u ds).mp hlk, hnd⟩
  · cases cap with
    | false => simpa [onDidChangeConfiguration] using hnd
    | true => simp [onDidChangeConfiguration]
  · exact keys_filter_nodup ds _ hnd
  · cases cap with
    | false => rfl
    | true =>
      cases hlk : lookupEntry u ds with
      | some id =>
        rw [getDocumentSettings_cached g ds fc u id hlk]
        exact getDocumentSettings_cached g ds fc u id hlk
      | none =>
        rw [getDocumentSettings_fresh g ds fc u hlk]
        exact getDocumentSettings_cached g ((u, fc) :: ds) (fc + 1) u fc
          (by simp [lookupEntry])
  · rfl

/-- Witness for C5 on the empty cache in per-resource mode. -/
theorem getDocumentSettings_cache_invariant_witness :
    (([] : List (String × Nat)).map Prod.fst).Nodup
    ∧ (getDocumentSettings
          (onDidChangeConfiguration ⟨true, ⟨1000⟩, [], 0⟩ none)
          "file:///a.spn").2.fetchCount = 0 + 1 :=
  ⟨by simp,
    (getDocumentSettings_cache_invariant true ⟨1000⟩ [] 0 "file:///a.spn"
      "file:///b.spn" none (by simp)).2.2⟩

/-- Claim C10: completion resolution is the identity on every proposal the
completion handler can return — no catalog item carries a resolution key,
so neither recognized key ever fires and no proposal is ever enriched. -/
theorem onCompletionResolve_identity_on_catalog
    (p : TextDocumentPositionParams) :
    (onCompletion p).map CompletionItem.data = List.replicate 28 none
    ∧ (onCompletion p).map onCompletionResolve = onCompletion p :=
  ⟨rfl, rfl⟩

end FV1Server
